import Mathlib

/-!
Shallow embedding of the solar contract-deployment CLI (package `solar`
of SBit-Project/solar) together with the pieces of its collaborator
packages (`contract`, `varstr`, `deployer/sbit`, `deployer/eth`) that the
analysed properties depend on.  Functions present in the sources are
translated directly; functions of this repository that are only declared
or called from the sources at hand are modelled from the specification
and marked as such in their doc comments.
-/

set_option autoImplicit false

namespace Solar

/-- Confirmation lifecycle status of a deployed contract
(spec: Pending | Confirmed | Failed). -/
inductive ConfirmationStatus where
  | pending
  | confirmed
  | failed
  deriving DecidableEq, Repr

/-- Modelled from the spec: a `DeployedContract` record — name, chain
address (chain-specific encoding, kept abstract as a string), transaction
id, confirmation status and an optional block reference once confirmed.
The `contract` package that declares it is not among the sources at hand. -/
structure DeployedContract where
  name : String
  address : String
  txid : String
  status : ConfirmationStatus
  blockRef : Option Nat
  deriving DecidableEq, Repr

/-- Modelled from the spec: the `contract.ContractsRepository` (AddressBook),
a mapping from contract name to its `DeployedContract` record for one
environment.  Represented as an association list. -/
structure ContractsRepository where
  contracts : List (String × DeployedContract)
  deriving DecidableEq, Repr

/-- Modelled from the spec: `Get(name) -> (DeployedContract, found bool)`,
a pure lookup with no side effects. -/
def ContractsRepository.Get (repo : ContractsRepository) (name : String) :
    Option DeployedContract :=
  repo.contracts.lookup name

/-- The empty AddressBook (first-run case). -/
def emptyRepository : ContractsRepository := ⟨[]⟩

/-! ## Placeholder expansion (`varstr.Expand` and `solarCLI.ExpandJSONParams`) -/

/-- The token-introducing character of the placeholder syntax. -/
def dollarChar : Char := Char.ofNat 36

/-- Opening delimiter of the braced placeholder form. -/
def openBraceChar : Char := Char.ofNat 123

/-- Closing delimiter of the braced placeholder form. -/
def closeBraceChar : Char := Char.ofNat 125

/-- Modelled from the spec: a placeholder name is made of contiguous
identifier characters. -/
def isIdentChar (c : Char) : Bool :=
  c.isAlpha || c.isDigit || c = Char.ofNat 95

/-- Splits a character list into its longest identifier-character prefix
and the remainder. -/
def takeIdent : List Char → List Char × List Char
  | [] => ([], [])
  | c :: cs =>
    if isIdentChar c then
      let p := takeIdent cs
      (c :: p.1, p.2)
    else
      ([], c :: cs)

/-- Scans for the closing brace of a `${Name}` token: returns the
characters before it and the remainder after it, or `none` when the
brace is never closed. -/
def takeBraced : List Char → Option (List Char × List Char)
  | [] => none
  | c :: cs =>
    if c = closeBraceChar then
      some ([], cs)
    else
      match takeBraced cs with
      | none => none
      | some p => some (c :: p.1, p.2)

/-- Modelled from the spec: the scanning core of `varstr.Expand` (the
`varstr` package is not among the sources at hand).  Single pass over the
text; each `$Name` and `${Name}` token is replaced by the resolver's
result, which is never itself re-scanned.  A resolver that aborts (Go
panic, or a typed error) short-circuits the whole expansion with its
error.  Fuel-indexed for structural termination; every recursive call
consumes at least one character, so fuel equal to the input length is
always sufficient. -/
def varstrExpandAux {ε : Type} (resolver : String → Except ε String) :
    Nat → List Char → Except ε (List Char)
  | 0, _ => Except.ok []
  | _ + 1, [] => Except.ok []
  | fuel + 1, c :: cs =>
    if c = dollarChar then
      match cs with
      | [] => Except.ok [c]
      | d :: ds =>
        if d = openBraceChar then
          match takeBraced ds with
          | some (nm, rest) =>
            match resolver (String.mk nm) with
            | Except.error e => Except.error e
            | Except.ok v =>
              match varstrExpandAux resolver fuel rest with
              | Except.error e => Except.error e
              | Except.ok tail => Except.ok (v.data ++ tail)
          | none =>
            match varstrExpandAux resolver fuel cs with
            | Except.error e => Except.error e
            | Except.ok tail => Except.ok (c :: tail)
        else
          match takeIdent cs with
          | ([], _) =>
            match varstrExpandAux resolver fuel cs with
            | Except.error e => Except.error e
            | Except.ok tail => Except.ok (c :: tail)
          | (nc :: ncs, rest) =>
            match resolver (String.mk (nc :: ncs)) with
            | Except.error e => Except.error e
            | Except.ok v =>
              match varstrExpandAux resolver fuel rest with
              | Except.error e => Except.error e
              | Except.ok tail => Except.ok (v.data ++ tail)
    else
      match varstrExpandAux resolver fuel cs with
      | Except.error e => Except.error e
      | Except.ok tail => Except.ok (c :: tail)

/-- Modelled from the spec: `varstr.Expand` over strings, built on
`varstrExpandAux` with sufficient fuel. -/
def varstrExpand {ε : Type} (resolver : String → Except ε String) (s : String) :
    Except ε String :=
  match varstrExpandAux resolver s.data.length s.data with
  | Except.error e => Except.error e
  | Except.ok cs => Except.ok (String.mk cs)

/-- The expansion error taxonomy of the spec: `UnknownReference` carries
the dangling placeholder name. -/
inductive ExpansionError where
  | unknownReference (name : String)
  deriving DecidableEq, Repr

/-- Modelled from the spec: `Expand(text, resolver) -> text | ExpansionError`,
failing with `UnknownReference` when the resolver has no binding for a
referenced name. -/
def Expand (resolver : String → Option String) (text : String) :
    Except ExpansionError String :=
  varstrExpand
    (fun key =>
      match resolver key with
      | some v => Except.ok v
      | none => Except.error (ExpansionError.unknownReference key))
    text

/-- A resolver binding `Foo` to `0xABC`, as in the spec's expansion
examples. -/
def fooResolver : String → Option String :=
  fun key => if key = "Foo" then some "0xABC" else none

/-! ## Process termination and error values of the CLI layer -/

/-- The ways the CLI layer aborts the process: `exit` models `os.Exit`,
`fatalLog` models `log.Fatalln` / `log.Fatalf` (which print and exit). -/
inductive ProcessExit where
  | exit (code : Nat)
  | fatalLog (msg : String)
  deriving DecidableEq, Repr

/-- The message of `errorUnspecifiedRPC` in the source. -/
def errorUnspecifiedRPC : String :=
  "Please specify RPC url by setting SBIT_RPC or ETH_RPC or using flag --sbit_rpc or --eth_rpc"

/-- The `RPCPlatform` enumeration of the source (`RPCSbit`, `RPCEthereum`). -/
inductive RPCPlatform where
  | RPCSbit
  | RPCEthereum
  deriving DecidableEq, Repr

/-- `solarCLI.RPCPlatform` from the source: fatal when both endpoint flags
are empty, otherwise the sbit platform when `sbitRPC` is non-empty, else
the ethereum platform. -/
def RPCPlatformCall (sbitRPC ethRPC : String) : Except ProcessExit RPCPlatform :=
  if sbitRPC = "" ∧ ethRPC = "" then
    Except.error (ProcessExit.fatalLog errorUnspecifiedRPC)
  else if sbitRPC ≠ "" then
    Except.ok RPCPlatform.RPCSbit
  else
    Except.ok RPCPlatform.RPCEthereum

/-! ## Opening the contracts repository -/

/-- The file-error taxonomy of the spec for the repository file. -/
inductive FileError where
  | unparsable (path : String)
  deriving DecidableEq, Repr

/-- Modelled from the spec: `contract.OpenContractsRepository` (the
`contract` package is not among the sources at hand).  `fs` models the
file system (`none` = no file at that path) and `parseRepo` the JSON
decoding of a file's content.  A missing file yields a valid empty book;
a present-but-unparsable file is a `FileError`. -/
def OpenContractsRepository (parseRepo : String → Option ContractsRepository)
    (fs : String → Option String) (path : String) :
    Except FileError ContractsRepository :=
  match fs path with
  | none => Except.ok emptyRepository
  | some content =>
    match parseRepo content with
    | none => Except.error (FileError.unparsable path)
    | some repo => Except.ok repo

/-- The repository file path computed by `solarCLI.ContractsRepository`:
the `--repo` flag when non-empty, else `solar.<env>.json`. -/
def repoFilePathOf (solarRepo solarEnv : String) : String :=
  if solarRepo ≠ "" then solarRepo
  else "solar." ++ solarEnv ++ ".json"

/-! ## The `solarCLI` process state

The source keeps package-level lazily initialised fields guarded by
`sync.Once` (`repo`/`repoOnce`, and the declared-but-unused
`depoyer`/`deployerOnce`).  The state below carries the cached repository
together with instrumentation counters that record how many times the
repository file was read and how many deployer / RPC-client values were
constructed, so that caching (or its absence) is observable. -/

structure SolarState where
  repo : Option ContractsRepository
  repoReads : Nat
  deployerConstructions : Nat
  sbitRPCConstructions : Nat
  deriving DecidableEq, Repr

/-- `solarCLI.ContractsRepository` from the source: under `repoOnce`, the
first call computes the file path, opens the repository (exiting the
process with code 1 on error) and caches it; every later call returns the
cached instance without touching storage. -/
def ContractsRepositoryCall (parseRepo : String → Option ContractsRepository)
    (fs : String → Option String) (solarRepo solarEnv : String)
    (st : SolarState) : Except ProcessExit (ContractsRepository × SolarState) :=
  match st.repo with
  | some r => Except.ok (r, st)
  | none =>
    match OpenContractsRepository parseRepo fs (repoFilePathOf solarRepo solarEnv) with
    | Except.error _ => Except.error (ProcessExit.exit 1)
    | Except.ok r =>
      Except.ok (r, { st with repo := some r, repoReads := st.repoReads + 1 })

/-- The sbit RPC client value (`sbit.RPC`), kept abstract as its endpoint
URL. -/
structure RPCClient where
  url : String
  deriving DecidableEq, Repr

/-- `solarCLI.SbitRPC` from the source: constructs a fresh `sbit.RPC` from
the `--sbit_rpc` flag on every call (no caching), exiting the process with
code 1 when the URL is invalid.  `newRPC` models `sbit.NewRPC` (not among
the sources at hand); the construction counter records each invocation. -/
def SbitRPCCall (newRPC : String → Option RPCClient) (sbitRPC : String)
    (st : SolarState) : Except ProcessExit (RPCClient × SolarState) :=
  match newRPC sbitRPC with
  | none => Except.error (ProcessExit.exit 1)
  | some rpc =>
    Except.ok (rpc, { st with sbitRPCConstructions := st.sbitRPCConstructions + 1 })

/-! ## Deployer selection -/

/-- The two deployer implementations, tagged with their construction
arguments: `sbit.NewDeployer(rpcURL, repo, senderAddress)` and
`eth.NewDeployer(rpcURL, repo)`.  The backend packages are not among the
sources at hand; the spec describes them as stateless protocol adapters
constructed per RPC target. -/
inductive DeployerImpl where
  | sbitDeployer (url : String) (repo : ContractsRepository) (sender : String)
  | ethDeployer (url : String) (repo : ContractsRepository)
  deriving DecidableEq, Repr

/-- `solarCLI.Deployer` from the source, sequential like the Go body:
if `sbitRPC` is non-empty, parse it (fatal on failure) and construct the
sbit deployer; then, if `ethRPC` is non-empty, parse it (fatal on failure)
and construct the eth deployer, overwriting the `deployer` variable; a
still-nil deployer is fatal (`errorUnspecifiedRPC`).  `parse` models
`url.ParseRequestURI`; each constructor invocation bumps the construction
counter, and the body never consults the (unused) `depoyer`/`deployerOnce`
cache fields. -/
def DeployerCall (parse : String → Option String)
    (parseRepo : String → Option ContractsRepository)
    (fs : String → Option String)
    (sbitRPC ethRPC sbitSender solarRepo solarEnv : String)
    (st : SolarState) : Except ProcessExit (DeployerImpl × SolarState) :=
  match
    (if sbitRPC = "" then Except.ok (none, st)
     else
       match parse sbitRPC with
       | none => Except.error (ProcessExit.fatalLog ("Invalid RPC url: " ++ sbitRPC))
       | some u =>
         match ContractsRepositoryCall parseRepo fs solarRepo solarEnv st with
         | Except.error e => Except.error e
         | Except.ok (repo, st₁) =>
           Except.ok (some (DeployerImpl.sbitDeployer u repo sbitSender),
             { st₁ with deployerConstructions := st₁.deployerConstructions + 1 }) :
      Except ProcessExit (Option DeployerImpl × SolarState)) with
  | Except.error e => Except.error e
  | Except.ok (d₀, st₁) =>
    match
      (if ethRPC = "" then Except.ok (d₀, st₁)
       else
         match parse ethRPC with
         | none => Except.error (ProcessExit.fatalLog ("Invalid RPC url: " ++ ethRPC))
         | some u =>
           match ContractsRepositoryCall parseRepo fs solarRepo solarEnv st₁ with
           | Except.error e => Except.error e
           | Except.ok (repo, st₂) =>
             Except.ok (some (DeployerImpl.ethDeployer u repo),
               { st₂ with deployerConstructions := st₂.deployerConstructions + 1 }) :
        Except ProcessExit (Option DeployerImpl × SolarState)) with
    | Except.error e => Except.error e
    | Except.ok (none, _) => Except.error (ProcessExit.fatalLog errorUnspecifiedRPC)
    | Except.ok (some d, st₂) => Except.ok (d, st₂)

/-! ## Output byte formatting -/

/-- Modelled from the spec: the `contract` package's byte-formatting mode
defaults to rendering addresses without the chain-specific prefix; it is
only switched by `SetFormatBytesWithPrefix`. -/
def initialFormatBytesWithPrefix : Bool := false

/-- `solarCLI.ConfigureBytesOutputFormat` from the source: sets the
with-prefix mode to `true` exactly when the `--eth_rpc` flag is non-empty,
leaving the mode untouched otherwise. -/
def ConfigureBytesOutputFormat (ethRPC : String) (formatBytesWithPrefix : Bool) : Bool :=
  if ethRPC ≠ "" then true else formatBytesWithPrefix

/-! ## Panic-based expansion in the CLI -/

/-- A Go panic: a non-local abort carrying its message.  Kept distinct
from ordinary error results on purpose — `solarCLI.ExpandJSONParams`
returns a plain `string` in the source, so a panic is its only failure
mechanism. -/
inductive Panic where
  | panic (msg : String)
  deriving DecidableEq, Repr

/-- `solarCLI.ExpandJSONParams` from the source: expands placeholders via
`varstr.Expand` with a resolver backed by the contracts repository's
`Get`; when a name is unbound the resolver panics with
`Invalid address expansion: <name>`, and that panic propagates out of the
whole call as a non-local abort (`Except.error (Panic.panic ...)`). -/
def ExpandJSONParams (repo : ContractsRepository) (jsonParams : String) :
    Except Panic String :=
  varstrExpand
    (fun key =>
      match repo.Get key with
      | some c => Except.ok c.address
      | none => Except.error (Panic.panic ("Invalid address expansion: " ++ key)))
    jsonParams

/-! ## Confirmation (the `Deployer` capability interface) -/

/-- RPC-level failure while talking to a chain backend. -/
inductive RPCError where
  | rpcError
  deriving DecidableEq, Repr

/-- Modelled from the spec: `ConfirmContract(deployed) -> error` of the
`Deployer` interface (only the interface declaration is among the sources
at hand).  It polls the chain (`chainIncluded`, indexed by transaction id)
until the transaction is reported included, mutating the record's status
to Confirmed or Failed; on an already-Confirmed record it is a no-op
success that re-submits nothing.  The returned boolean records whether
anything was submitted to the backend. -/
def ConfirmContract (chainIncluded : String → Option Bool)
    (c : DeployedContract) : Except RPCError (DeployedContract × Bool) :=
  if c.status = ConfirmationStatus.confirmed then
    Except.ok (c, false)
  else
    match chainIncluded c.txid with
    | none => Except.error RPCError.rpcError
    | some true => Except.ok ({ c with status := ConfirmationStatus.confirmed }, true)
    | some false => Except.ok ({ c with status := ConfirmationStatus.failed }, true)

/-! ## Concrete fixtures used by witnesses and counterexamples -/

/-- A deployed contract whose confirmation already succeeded. -/
def confirmedContract : DeployedContract :=
  { name := "Token", address := "0xABC", txid := "tx1",
    status := ConfirmationStatus.confirmed, blockRef := some 5 }

/-- A one-entry AddressBook binding `Token` (and nothing else). -/
def tokenRepository : ContractsRepository := ⟨[("Token", confirmedContract)]⟩

/-- A URL parser that accepts every string unchanged (models
`url.ParseRequestURI` succeeding). -/
def acceptAllURLs : String → Option String := fun u => some u

/-- A repository-file parser that rejects every content. -/
def rejectAllContents : String → Option ContractsRepository := fun _ => none

/-- A file system with no files at all. -/
def emptyFS : String → Option String := fun _ => none

/-- An `sbit.NewRPC` model that accepts every URL. -/
def acceptAllRPC : String → Option RPCClient := fun u => some ⟨u⟩

/-- A fresh process state: nothing cached, nothing constructed yet. -/
def freshState : SolarState :=
  { repo := none, repoReads := 0, deployerConstructions := 0, sbitRPCConstructions := 0 }

/-- A process state whose repository cache is already populated (one file
read happened). -/
def cachedRepoState : SolarState :=
  { repo := some emptyRepository, repoReads := 1,
    deployerConstructions := 0, sbitRPCConstructions := 0 }

/-! ## The placeholder tokens of a text

`scanNamesAux` recognizes exactly the placeholder tokens that
`varstrExpandAux` does — same fuel, same case structure — and collects
their names in scan order.  It defines what "the text contains a
placeholder `$Name` or `${Name}`" means for the expansion theorems. -/

/-- The names of the `$Name` and `${Name}` tokens a single pass over the
character list recognizes, in scan order. -/
def scanNamesAux : Nat → List Char → List String
  | 0, _ => []
  | _ + 1, [] => []
  | fuel + 1, c :: cs =>
    if c = dollarChar then
      match cs with
      | [] => []
      | d :: ds =>
        if d = openBraceChar then
          match takeBraced ds with
          | some (nm, rest) => String.mk nm :: scanNamesAux fuel rest
          | none => scanNamesAux fuel cs
        else
          match takeIdent cs with
          | ([], _) => scanNamesAux fuel cs
          | (nc :: ncs, rest) => String.mk (nc :: ncs) :: scanNamesAux fuel rest
    else
      scanNamesAux fuel cs

/-- The placeholder names of a text, in scan order. -/
def scanNames (s : String) : List String :=
  scanNamesAux s.data.length s.data

/-- The resolver `solarCLI.ExpandJSONParams` passes to `varstr.Expand`:
the repository's `Get`, panicking with `Invalid address expansion` on an
unbound name. -/
def repoResolver (repo : ContractsRepository) : String → Except Panic String :=
  fun key =>
    match repo.Get key with
    | some c => Except.ok c.address
    | none => Except.error (Panic.panic ("Invalid address expansion: " ++ key))

/-! # Theorems -/

/-- C4: for every resolver binding `Foo` to `0xABC` and leaving `Bar`
unbound, expansion replaces `$Foo` and `${Foo}` with the resolver's
result and fails with `UnknownReference` on the unbound `$Bar`. -/
theorem expand_replaces_tokens (resolver : String → Option String)
    (h1 : resolver "Foo" = some "0xABC") (h2 : resolver "Bar" = none) :
    Expand resolver "addr=$Foo" = Except.ok "addr=0xABC" ∧
    Expand resolver "addr=${Foo}" = Except.ok "addr=0xABC" ∧
    Expand resolver "addr=$Bar" = Except.error (ExpansionError.unknownReference "Bar") := by
  refine ⟨?_, ?_, ?_⟩ <;>
    simp +decide [Expand, varstrExpand, varstrExpandAux, takeIdent, takeBraced,
      isIdentChar, dollarChar, openBraceChar, closeBraceChar, h1, h2]

/-- Witness for C4 at the concrete resolver of the spec's examples. -/
theorem expand_replaces_tokens_witness :
    Expand fooResolver "addr=$Foo" = Except.ok "addr=0xABC" ∧
    Expand fooResolver "addr=${Foo}" = Except.ok "addr=0xABC" ∧
    Expand fooResolver "addr=$Bar" = Except.error (ExpansionError.unknownReference "Bar") :=
  expand_replaces_tokens fooResolver (by decide) (by decide)

/-- C8: with no explicit repository path the file for environment `env`
is `solar.<env>.json`; an explicitly supplied path overrides the
convention. -/
theorem repo_file_naming (solarRepo solarEnv : String) :
    (solarRepo = "" → repoFilePathOf solarRepo solarEnv = "solar." ++ solarEnv ++ ".json") ∧
    (solarRepo ≠ "" → repoFilePathOf solarRepo solarEnv = solarRepo) := by
  constructor
  · intro h
    simp [repoFilePathOf, h]
  · intro h
    simp [repoFilePathOf, h]

/-- Witness for C8 at the default environment and at an explicit path. -/
theorem repo_file_naming_witness :
    repoFilePathOf "" "development" = "solar.development.json" ∧
    repoFilePathOf "custom.json" "development" = "custom.json" :=
  ⟨(repo_file_naming "" "development").1 rfl,
   (repo_file_naming "custom.json" "development").2 (by decide)⟩

/-- C5: the bytes-output mode is derived from the active endpoint family:
addresses are rendered with the chain-specific prefix exactly when the
eth endpoint is configured, and without it when only the sbit endpoint
is configured. -/
theorem bytes_output_format_by_endpoint (sbitRPC ethRPC : String) :
    (ethRPC ≠ "" → ConfigureBytesOutputFormat ethRPC initialFormatBytesWithPrefix = true) ∧
    (sbitRPC ≠ "" → ethRPC = "" →
      ConfigureBytesOutputFormat ethRPC initialFormatBytesWithPrefix = false) := by
  constructor
  · intro h
    simp [ConfigureBytesOutputFormat, h]
  · intro _ h
    simp [ConfigureBytesOutputFormat, h, initialFormatBytesWithPrefix]

/-- Witness for C5 at an eth-only and an sbit-only configuration. -/
theorem bytes_output_format_by_endpoint_witness :
    ConfigureBytesOutputFormat "http://e" initialFormatBytesWithPrefix = true ∧
    ConfigureBytesOutputFormat "" initialFormatBytesWithPrefix = false :=
  ⟨(bytes_output_format_by_endpoint "" "http://e").1 (by decide),
   (bytes_output_format_by_endpoint "http://s" "").2 (by decide) rfl⟩

/-- C9: `ConfirmContract` is idempotent — on a record whose status is
already Confirmed it returns success, submits nothing to the backend
(the `false` component), and leaves the record unchanged. -/
theorem confirmContract_idempotent (chainIncluded : String → Option Bool)
    (c : DeployedContract) (h : c.status = ConfirmationStatus.confirmed) :
    ConfirmContract chainIncluded c = Except.ok (c, false) := by
  simp [ConfirmContract, h]

/-- Witness for C9: a confirmed record against a backend that would fail
every query — the call still succeeds without contacting it. -/
theorem confirmContract_idempotent_witness :
    ConfirmContract (fun _ => none) confirmedContract = Except.ok (confirmedContract, false) :=
  confirmContract_idempotent (fun _ => none) confirmedContract rfl

/-- C3: opening the repository at a path with no file yields the valid
empty book; a present-but-unparsable file is a `FileError`, and the CLI
invocation that opens it aborts the process (exit code 1) rather than
defaulting to an empty book. -/
theorem open_repository_missing_vs_malformed
    (parseRepo : String → Option ContractsRepository) (fs : String → Option String)
    (path : String) :
    (fs path = none → OpenContractsRepository parseRepo fs path = Except.ok emptyRepository) ∧
    (∀ content, fs path = some content → parseRepo content = none →
      OpenContractsRepository parseRepo fs path = Except.error (FileError.unparsable path)) ∧
    (∀ solarRepo solarEnv st content, st.repo = none →
      fs (repoFilePathOf solarRepo solarEnv) = some content → parseRepo content = none →
      ContractsRepositoryCall parseRepo fs solarRepo solarEnv st =
        Except.error (ProcessExit.exit 1)) := by
  refine ⟨?_, ?_, ?_⟩
  · intro h
    simp [OpenContractsRepository, h]
  · intro content h1 h2
    simp [OpenContractsRepository, h1, h2]
  · intro solarRepo solarEnv st content hrepo h1 h2
    simp [ContractsRepositoryCall, OpenContractsRepository, hrepo, h1, h2]

/-- Witness for C3: a missing file yields the empty book; a present file
whose content no parse accepts is a `FileError` and exits the CLI. -/
theorem open_repository_missing_vs_malformed_witness :
    OpenContractsRepository rejectAllContents emptyFS "solar.development.json" =
      Except.ok emptyRepository ∧
    OpenContractsRepository rejectAllContents (fun _ => some "garbage") "solar.development.json" =
      Except.error (FileError.unparsable "solar.development.json") ∧
    ContractsRepositoryCall rejectAllContents (fun _ => some "garbage") "" "development" freshState =
      Except.error (ProcessExit.exit 1) :=
  ⟨(open_repository_missing_vs_malformed rejectAllContents emptyFS "solar.development.json").1 rfl,
   (open_repository_missing_vs_malformed rejectAllContents (fun _ => some "garbage")
      "solar.development.json").2.1 "garbage" rfl rfl,
   (open_repository_missing_vs_malformed rejectAllContents (fun _ => some "garbage")
      "solar.development.json").2.2 "" "development" freshState "garbage" rfl rfl rfl⟩

/-- C6: the contracts repository is lazy-initialized at most once and
cached — a successful call leaves the instance in the cache, a first call
(empty cache) performs exactly one storage read, and every subsequent
call returns the identical instance with the state (hence the read
counter) unchanged. -/
theorem contractsRepository_lazy_cached
    (parseRepo : String → Option ContractsRepository) (fs : String → Option String)
    (solarRepo solarEnv : String) (st st' : SolarState) (r : ContractsRepository)
    (h : ContractsRepositoryCall parseRepo fs solarRepo solarEnv st = Except.ok (r, st')) :
    st'.repo = some r ∧
    (st.repo = none → st'.repoReads = st.repoReads + 1) ∧
    ContractsRepositoryCall parseRepo fs solarRepo solarEnv st' = Except.ok (r, st') := by
  cases hrepo : st.repo with
  | some r₀ =>
    simp [ContractsRepositoryCall, hrepo] at h
    obtain ⟨h1, h2⟩ := h
    subst h1
    subst h2
    exact ⟨hrepo, by simp [hrepo], by simp [ContractsRepositoryCall, hrepo]⟩
  | none =>
    cases hopen : OpenContractsRepository parseRepo fs (repoFilePathOf solarRepo solarEnv) with
    | error e =>
      simp [ContractsRepositoryCall, hrepo, hopen] at h
    | ok r₀ =>
      simp [ContractsRepositoryCall, hrepo, hopen] at h
      obtain ⟨h1, h2⟩ := h
      subst h1
      subst h2
      exact ⟨rfl, fun _ => rfl, by simp [ContractsRepositoryCall]⟩

/-- Witness for C6: a first call on the fresh state reads the (missing)
file once and caches the empty book; the call on the resulting state
returns the identical book and leaves the state untouched. -/
theorem contractsRepository_lazy_cached_witness :
    cachedRepoState.repo = some emptyRepository ∧
    (freshState.repo = none → cachedRepoState.repoReads = freshState.repoReads + 1) ∧
    ContractsRepositoryCall rejectAllContents emptyFS "" "development" cachedRepoState =
      Except.ok (emptyRepository, cachedRepoState) :=
  contractsRepository_lazy_cached rejectAllContents emptyFS "" "development"
    freshState cachedRepoState emptyRepository rfl

/-- C10: when both endpoints are set (with both URLs parseable and the
repository already cached), the two selection functions disagree —
`RPCPlatform()` yields the sbit platform while `Deployer()` yields the
eth deployer, the eth construction branch having overwritten the sbit one
(both constructions run, hence the counter rises by two). -/
theorem both_endpoints_platform_deployer_disagree
    (parse : String → Option String) (parseRepo : String → Option ContractsRepository)
    (fs : String → Option String)
    (sbitRPC ethRPC sbitSender solarRepo solarEnv : String) (st : SolarState)
    (u₁ u₂ : String) (r : ContractsRepository)
    (hs : sbitRPC ≠ "") (he : ethRPC ≠ "")
    (hp1 : parse sbitRPC = some u₁) (hp2 : parse ethRPC = some u₂)
    (hr : st.repo = some r) :
    RPCPlatformCall sbitRPC ethRPC = Except.ok RPCPlatform.RPCSbit ∧
    DeployerCall parse parseRepo fs sbitRPC ethRPC sbitSender solarRepo solarEnv st =
      Except.ok (DeployerImpl.ethDeployer u₂ r,
        { st with deployerConstructions := st.deployerConstructions + 1 + 1 }) := by
  constructor
  · simp [RPCPlatformCall, hs]
  · simp [DeployerCall, ContractsRepositoryCall, hs, he, hp1, hp2, hr]

/-- Witness for C10 at a concrete both-set configuration. -/
theorem both_endpoints_platform_deployer_disagree_witness :
    RPCPlatformCall "http://s" "http://e" = Except.ok RPCPlatform.RPCSbit ∧
    DeployerCall acceptAllURLs rejectAllContents emptyFS "http://s" "http://e" "S" ""
        "development" cachedRepoState =
      Except.ok (DeployerImpl.ethDeployer "http://e" emptyRepository,
        { cachedRepoState with
            deployerConstructions := cachedRepoState.deployerConstructions + 1 + 1 }) :=
  both_endpoints_platform_deployer_disagree acceptAllURLs rejectAllContents emptyFS
    "http://s" "http://e" "S" "" "development" cachedRepoState
    "http://s" "http://e" emptyRepository (by decide) (by decide) rfl rfl rfl

/-- C1 counterexample: with both endpoints non-empty, neither selection
function signals a configuration error — `RPCPlatform()` returns the
sbit platform and `Deployer()` returns the eth deployer, refuting the
claim that both calls fail on a both-set configuration. -/
theorem both_endpoints_not_config_error_cex :
    RPCPlatformCall "http://s" "http://e" = Except.ok RPCPlatform.RPCSbit ∧
    DeployerCall acceptAllURLs rejectAllContents emptyFS "http://s" "http://e" "S" ""
        "development" freshState =
      Except.ok (DeployerImpl.ethDeployer "http://e" emptyRepository,
        { repo := some emptyRepository, repoReads := 1,
          deployerConstructions := 2, sbitRPCConstructions := 0 }) :=
  ⟨rfl, rfl⟩

/-- C1 (amended): configuring neither endpoint is a fatal configuration
error for both `RPCPlatform()` and `Deployer()`; a both-set configuration
is not rejected (see the counterexample) but resolved by precedence. -/
theorem neither_endpoint_fatal_config_error :
    RPCPlatformCall "" "" = Except.error (ProcessExit.fatalLog errorUnspecifiedRPC) ∧
    ∀ (parse : String → Option String) (parseRepo : String → Option ContractsRepository)
      (fs : String → Option String) (sbitSender solarRepo solarEnv : String) (st : SolarState),
      DeployerCall parse parseRepo fs "" "" sbitSender solarRepo solarEnv st =
        Except.error (ProcessExit.fatalLog errorUnspecifiedRPC) := by
  constructor
  · rfl
  · intro parse parseRepo fs sbitSender solarRepo solarEnv st
    simp [DeployerCall]

/-- Witness for the amended C1 at a concrete neither-set configuration. -/
theorem neither_endpoint_fatal_config_error_witness :
    DeployerCall acceptAllURLs rejectAllContents emptyFS "" "" "" "" "development" freshState =
      Except.error (ProcessExit.fatalLog errorUnspecifiedRPC) :=
  neither_endpoint_fatal_config_error.2 acceptAllURLs rejectAllContents emptyFS
    "" "" "development" freshState

/-- C7 counterexample: `Deployer()` and `SbitRPC()` are not cached
singletons — calling each of them twice from a state that has already
constructed once performs a second construction (the counters reach 2),
instead of returning a cached instance without constructing. -/
theorem deployer_not_cached_cex :
    DeployerCall acceptAllURLs rejectAllContents emptyFS "http://s" "" "S" ""
        "development" cachedRepoState =
      Except.ok (DeployerImpl.sbitDeployer "http://s" emptyRepository "S",
        { repo := some emptyRepository, repoReads := 1,
          deployerConstructions := 1, sbitRPCConstructions := 0 }) ∧
    DeployerCall acceptAllURLs rejectAllContents emptyFS "http://s" "" "S" ""
        "development"
        { repo := some emptyRepository, repoReads := 1,
          deployerConstructions := 1, sbitRPCConstructions := 0 } =
      Except.ok (DeployerImpl.sbitDeployer "http://s" emptyRepository "S",
        { repo := some emptyRepository, repoReads := 1,
          deployerConstructions := 2, sbitRPCConstructions := 0 }) ∧
    SbitRPCCall acceptAllRPC "http://s" cachedRepoState =
      Except.ok (⟨"http://s"⟩,
        { repo := some emptyRepository, repoReads := 1,
          deployerConstructions := 0, sbitRPCConstructions := 1 }) ∧
    SbitRPCCall acceptAllRPC "http://s"
        { repo := some emptyRepository, repoReads := 1,
          deployerConstructions := 0, sbitRPCConstructions := 1 } =
      Except.ok (⟨"http://s"⟩,
        { repo := some emptyRepository, repoReads := 1,
          deployerConstructions := 0, sbitRPCConstructions := 2 }) :=
  ⟨rfl, rfl, rfl, rfl⟩

/-- C7 (amended): `Deployer()` and `SbitRPC()` construct a new instance
on every call — from any state, however many constructions already
happened, a call bumps the construction counter by one; the declared
`depoyer`/`deployerOnce` cache fields are never consulted.  (Only the
AddressBook and the event channel are `sync.Once`-cached.) -/
theorem deployer_rpc_constructed_every_call
    (parse : String → Option String) (parseRepo : String → Option ContractsRepository)
    (fs : String → Option String)
    (sbitRPC sbitSender solarRepo solarEnv u : String) (st : SolarState)
    (r : ContractsRepository) (newRPC : String → Option RPCClient) (rpc : RPCClient)
    (hs : sbitRPC ≠ "") (hp : parse sbitRPC = some u) (hr : st.repo = some r)
    (hn : newRPC sbitRPC = some rpc) :
    DeployerCall parse parseRepo fs sbitRPC "" sbitSender solarRepo solarEnv st =
      Except.ok (DeployerImpl.sbitDeployer u r sbitSender,
        { st with deployerConstructions := st.deployerConstructions + 1 }) ∧
    SbitRPCCall newRPC sbitRPC st =
      Except.ok (rpc, { st with sbitRPCConstructions := st.sbitRPCConstructions + 1 }) := by
  constructor
  · simp [DeployerCall, ContractsRepositoryCall, hs, hp, hr]
  · simp [SbitRPCCall, hn]

/-- Witness for the amended C7 from a state that already constructed
nothing but holds a cached repository. -/
theorem deployer_rpc_constructed_every_call_witness :
    DeployerCall acceptAllURLs rejectAllContents emptyFS "http://s" "" "S" ""
        "development" cachedRepoState =
      Except.ok (DeployerImpl.sbitDeployer "http://s" emptyRepository "S",
        { cachedRepoState with
            deployerConstructions := cachedRepoState.deployerConstructions + 1 }) ∧
    SbitRPCCall acceptAllRPC "http://s" cachedRepoState =
      Except.ok (⟨"http://s"⟩,
        { cachedRepoState with
            sbitRPCConstructions := cachedRepoState.sbitRPCConstructions + 1 }) :=
  deployer_rpc_constructed_every_call acceptAllURLs rejectAllContents emptyFS
    "http://s" "S" "" "development" "http://s" cachedRepoState emptyRepository
    acceptAllRPC ⟨"http://s"⟩ (by decide) rfl rfl rfl

/-- C2 counterexample: an unbound placeholder does not come back as an
ordinary error result — `ExpandJSONParams` (whose Go return type is a
plain `string` with no error channel) aborts with a panic, modelled here
as the `Panic`-valued error of the call. -/
theorem expandJSONParams_panic_cex :
    ExpandJSONParams emptyRepository "addr=$Bar" =
      Except.error (Panic.panic "Invalid address expansion: Bar") := rfl

/-- The resolver inlined in `ExpandJSONParams` is `repoResolver`. -/
theorem expandJSONParams_as_resolver (repo : ContractsRepository) (s : String) :
    ExpandJSONParams repo s = varstrExpand (repoResolver repo) s := rfl

/-- Core induction for C2: whenever the single-pass scan of the input
recognizes some placeholder name unbound in the repository, the
fuel-indexed expansion aborts with the `Invalid address expansion` panic
of an unbound placeholder name of that scan (the first one reached). -/
theorem varstrExpandAux_unbound_error (repo : ContractsRepository) :
    ∀ (fuel : Nat) (cs : List Char),
      (∃ k ∈ scanNamesAux fuel cs, repo.Get k = none) →
      ∃ k, repo.Get k = none ∧ k ∈ scanNamesAux fuel cs ∧
        varstrExpandAux (repoResolver repo) fuel cs =
          Except.error (Panic.panic ("Invalid address expansion: " ++ k)) := by
  intro fuel
  induction fuel with
  | zero =>
    intro cs h
    simp [scanNamesAux] at h
  | succ fuel ih =>
    intro cs h
    cases cs with
    | nil => simp [scanNamesAux] at h
    | cons c cs' =>
      by_cases hc : c = dollarChar
      · subst hc
        cases cs' with
        | nil => simp [scanNamesAux] at h
        | cons d ds =>
          by_cases hd : d = openBraceChar
          · subst hd
            cases htb : takeBraced ds with
            | none =>
              simp [scanNamesAux, htb] at h
              obtain ⟨k, hk1, hk2, hk3⟩ := ih (openBraceChar :: ds) h
              refine ⟨k, hk1, ?_, ?_⟩
              · simp [scanNamesAux, htb, hk2]
              · simp [varstrExpandAux, htb, hk3]
            | some p =>
              obtain ⟨nm, rest⟩ := p
              cases hga : repo.Get (String.mk nm) with
              | none =>
                refine ⟨String.mk nm, hga, ?_, ?_⟩
                · simp [scanNamesAux, htb]
                · simp [varstrExpandAux, htb, repoResolver, hga]
              | some a =>
                simp [scanNamesAux, htb, hga] at h
                obtain ⟨k₀, hk1, hk2, hk3⟩ := ih rest h
                refine ⟨k₀, hk1, ?_, ?_⟩
                · simp [scanNamesAux, htb, hk2]
                · simp [varstrExpandAux, htb, repoResolver, hga, hk3]
          · cases hti : takeIdent (d :: ds) with
            | mk nm rest =>
              cases nm with
              | nil =>
                simp [scanNamesAux, hd, hti] at h
                obtain ⟨k, hk1, hk2, hk3⟩ := ih (d :: ds) h
                refine ⟨k, hk1, ?_, ?_⟩
                · simp [scanNamesAux, hd, hti, hk2]
                · simp [varstrExpandAux, hd, hti, hk3]
              | cons nc ncs =>
                cases hga : repo.Get (String.mk (nc :: ncs)) with
                | none =>
                  refine ⟨String.mk (nc :: ncs), hga, ?_, ?_⟩
                  · simp [scanNamesAux, hd, hti]
                  · simp [varstrExpandAux, hd, hti, repoResolver, hga]
                | some a =>
                  simp [scanNamesAux, hd, hti, hga] at h
                  obtain ⟨k₀, hk1, hk2, hk3⟩ := ih rest h
                  refine ⟨k₀, hk1, ?_, ?_⟩
                  · simp [scanNamesAux, hd, hti, hk2]
                  · simp [varstrExpandAux, hd, hti, repoResolver, hga, hk3]
      · simp [scanNamesAux, hc] at h
        obtain ⟨k, hk1, hk2, hk3⟩ := ih cs' h
        refine ⟨k, hk1, ?_, ?_⟩
        · simp [scanNamesAux, hc, hk2]
        · simp [varstrExpandAux, hc, hk3]

/-- C2 (amended): for every repository and every input text containing a
placeholder token `$Name` or `${Name}` — a name recognized by the
single-pass scan — that is not bound in the repository,
`ExpandJSONParams` aborts with a panic carrying
`Invalid address expansion: <k>` for an unbound placeholder name `k` of
the text (the first one reached by the scan).  The failure is a
non-local abort, not an ordinary error result, and no text with an
unresolved or garbage address is ever produced for deployment. -/
theorem expandJSONParams_unbound_panic (repo : ContractsRepository) (text : String)
    (h : ∃ k ∈ scanNames text, repo.Get k = none) :
    ∃ k, repo.Get k = none ∧ k ∈ scanNames text ∧
      ExpandJSONParams repo text =
        Except.error (Panic.panic ("Invalid address expansion: " ++ k)) := by
  obtain ⟨k, hk1, hk2, hk3⟩ := varstrExpandAux_unbound_error repo text.data.length text.data h
  refine ⟨k, hk1, hk2, ?_⟩
  rw [expandJSONParams_as_resolver]
  unfold varstrExpand
  rw [hk3]

/-- Witness for the amended C2: a text using both token forms against a
repository that binds `Token` but neither `Foo` nor `Bar`. -/
theorem expandJSONParams_unbound_panic_witness :
    ∃ k, tokenRepository.Get k = none ∧ k ∈ scanNames "a=${Foo},b=$Bar" ∧
      ExpandJSONParams tokenRepository "a=${Foo},b=$Bar" =
        Except.error (Panic.panic ("Invalid address expansion: " ++ k)) :=
  expandJSONParams_unbound_panic tokenRepository "a=${Foo},b=$Bar" (by decide)

end Solar
